import Mathlib

/-!
Shallow embedding of the metrics pipeline of the youtube-research-tool
repository (files `get_video_data.py`, `channel_analyzer.py`,
`update_gsheet.py`), together with theorems settling the specification
claims about it.

Modelling conventions:
* Python ints are `Int`/`Nat`; Python floats are modelled as exact
  rationals (`ℚ`), with `round(x, n)` modelled as round-half-to-even of
  the exactly scaled value.
* Dictionaries are modelled as functions into `Option`.
* Remote API calls and other effects are passed in as explicit oracle
  arguments, so every definition is a pure, executable function.
-/

namespace YTRT

/-- Round half to even on rationals, modelling Python's built-in round
applied to an exact value. -/
def roundHalfEven (q : ℚ) : ℤ :=
  let f : ℤ := ⌊q⌋
  let r : ℚ := q - (f : ℚ)
  if r < 1/2 then f
  else if 1/2 < r then f + 1
  else if 2 ∣ f then f else f + 1

/-- Python `round(q, 2)` on an exact rational value. -/
def pyRound2 (q : ℚ) : ℚ := (roundHalfEven (q * 100) : ℚ) / 100

/-- Python `round(q, 1)` on an exact rational value. -/
def pyRound1 (q : ℚ) : ℚ := (roundHalfEven (q * 10) : ℚ) / 10

/-- Numeric value of a digit string, as Python `int()` applied to a
regex group of `\d+`. -/
def digitsVal (l : List Char) : Nat :=
  l.foldl (fun a c => 10 * a + (c.toNat - 48)) 0

/-- One optional group `(?:(\d+)X)?` of the duration regex, matched at
the current position of the input.  The Python regex engine matches the
group iff the maximal digit run at the position is non-empty and is
immediately followed by the letter `c` (backtracking to a shorter run
cannot help, since the character after a shorter run is a digit);
otherwise the optional group is skipped and the position is unchanged. -/
def durGroup (c : Char) (s : List Char) : Option Nat × List Char :=
  let ds := s.takeWhile Char.isDigit
  match s.dropWhile Char.isDigit with
  | r :: rs => if ds ≠ [] ∧ r = c then (some (digitsVal ds), rs) else (none, s)
  | [] => (none, s)

/-- Embedding of `YouTubeDataAPI._parse_duration` (get_video_data.py,
lines 23-34) on the character list of the input.  `re.match` anchors the
pattern `PT(?:(\d+)H)?(?:(\d+)M)?(?:(\d+)S)?` at the start of the input
only: the literal `PT` is required, each group is optional, and any
trailing characters after the matched prefix are ignored.  A failed
match (input not starting with `PT`) yields 0, as does the empty
string. -/
def parseDurationChars (s : List Char) : Nat :=
  match s with
  | 'P' :: 'T' :: t =>
    let g1 := durGroup 'H' t
    let g2 := durGroup 'M' g1.2
    let g3 := durGroup 'S' g2.2
    (g1.1.getD 0) * 3600 + (g2.1.getD 0) * 60 + g3.1.getD 0
  | _ => 0

/-- Embedding of `YouTubeDataAPI._parse_duration` on strings. -/
def parseDuration (s : String) : Nat := parseDurationChars s.toList

/-- Rendering of one optional `H`/`M`/`S` group of a well-formed
duration string: the digit run followed by its letter, or nothing. -/
def renderGroup (c : Char) (o : Option (List Char)) : List Char :=
  match o with
  | none => []
  | some l => l ++ [c]

/-- A well-formed optional duration group: absent, or a non-empty run
of decimal digits. -/
def goodGroup (o : Option (List Char)) : Bool :=
  match o with
  | none => true
  | some l => !l.isEmpty && l.all Char.isDigit

/-- Numeric value contributed by an optional group (absent means 0). -/
def groupVal (o : Option (List Char)) : Nat :=
  (o.map digitsVal).getD 0

theorem takeWhile_digits_append (ds : List Char) (h : ∀ c ∈ ds, c.isDigit)
    (c : Char) (hc : ¬ c.isDigit) (rest : List Char) :
    (ds ++ c :: rest).takeWhile Char.isDigit = ds ∧
    (ds ++ c :: rest).dropWhile Char.isDigit = c :: rest := by
  induction ds with
  | nil => simp [List.takeWhile_cons, List.dropWhile_cons, hc]
  | cons d ds ih =>
    have hd : d.isDigit := h d (by simp)
    have h2 := ih (fun x hx => h x (by simp [hx]))
    simp [List.takeWhile_cons, List.dropWhile_cons, hd, h2.1, h2.2]

theorem durGroup_hit (ds : List Char) (hne : ds ≠ []) (h : ∀ c ∈ ds, c.isDigit)
    (c : Char) (hc : ¬ c.isDigit) (rest : List Char) :
    durGroup c (ds ++ c :: rest) = (some (digitsVal ds), rest) := by
  have h2 := takeWhile_digits_append ds h c hc rest
  simp [durGroup, h2.1, h2.2, hne]

theorem durGroup_miss (ds : List Char) (h : ∀ c ∈ ds, c.isDigit)
    (b c : Char) (hb : ¬ b.isDigit) (hbc : b ≠ c) (rest : List Char) :
    durGroup c (ds ++ b :: rest) = (none, ds ++ b :: rest) := by
  have h2 := takeWhile_digits_append ds h b hb rest
  simp [durGroup, h2.1, h2.2, hbc]

theorem durGroup_nil (ds : List Char) (h : ∀ c ∈ ds, c.isDigit) (c : Char) :
    durGroup c (ds ++ []) = (none, ds ++ []) := by
  have h1 : (ds ++ ([] : List Char)).takeWhile Char.isDigit = ds := by
    simp [List.takeWhile_eq_self_iff.2]
    intro a ha
    exact h a ha
  have h2 : (ds ++ ([] : List Char)).dropWhile Char.isDigit = [] := by
    simp [List.dropWhile_eq_nil_iff]
    intro a ha
    exact h a ha
  simp only [durGroup, h1, h2]

theorem durGroup_empty (c : Char) : durGroup c [] = (none, []) := rfl

theorem goodGroup_some {l : List Char} (h : goodGroup (some l)) :
    l ≠ [] ∧ ∀ c ∈ l, c.isDigit := by
  simp only [goodGroup, Bool.and_eq_true, Bool.not_eq_true', List.isEmpty_eq_false,
    List.all_eq_true] at h
  exact h

theorem parseDuration_mk (l : List Char) :
    parseDuration (String.mk l) = parseDurationChars l := rfl

theorem parseDurationChars_pt (t : List Char) :
    parseDurationChars ('P' :: 'T' :: t) =
      (durGroup 'H' t).1.getD 0 * 3600 +
      ((durGroup 'M' (durGroup 'H' t).2).1.getD 0) * 60 +
      (durGroup 'S' (durGroup 'M' (durGroup 'H' t).2).2).1.getD 0 := rfl

/-- Claim C3 (amended): for every well-formed duration string `PT`
followed by optional non-empty digit groups suffixed `H`, `M`, `S` (in
that order, any subset present), `_parse_duration` returns
`3600*H + 60*M + S`; for the empty string, or any input not beginning
with the two characters `PT`, it returns 0; the result is a `Nat`, hence
always a non-negative integer, and the embedding is a pure function.
Malformed input that begins with a well-formed prefix returns the value
of that prefix rather than 0 (see the counterexample theorem). -/
theorem c3_parse_duration_amended :
    (∀ oh om os : Option (List Char), goodGroup oh → goodGroup om → goodGroup os →
      parseDuration (String.mk ('P' :: 'T' ::
          (renderGroup 'H' oh ++ renderGroup 'M' om ++ renderGroup 'S' os)))
        = 3600 * groupVal oh + 60 * groupVal om + groupVal os) ∧
    parseDuration "" = 0 ∧
    (∀ l : List Char, (∀ t, l ≠ 'P' :: 'T' :: t) → parseDurationChars l = 0) := by
  have ndH : ¬ Char.isDigit 'H' := by decide
  have ndM : ¬ Char.isDigit 'M' := by decide
  have ndS : ¬ Char.isDigit 'S' := by decide
  refine ⟨?_, rfl, ?_⟩
  · intro oh om os h1 h2 h3
    rw [parseDuration_mk, parseDurationChars_pt]
    rcases oh with _ | dh <;> rcases om with _ | dm <;> rcases os with _ | dsl
    · simp [renderGroup, durGroup_empty, groupVal]
    · obtain ⟨hne3, hd3⟩ := goodGroup_some h3
      simp only [renderGroup, List.append_assoc, List.cons_append,
        List.singleton_append, List.nil_append, List.append_nil,
        durGroup_miss dsl hd3 'S' 'H' ndS (by decide),
        durGroup_miss dsl hd3 'S' 'M' ndS (by decide),
        durGroup_hit dsl hne3 hd3 'S' ndS]
      simp [groupVal]
    · obtain ⟨hne2, hd2⟩ := goodGroup_some h2
      simp only [renderGroup, List.append_assoc, List.cons_append,
        List.singleton_append, List.nil_append, List.append_nil,
        durGroup_miss dm hd2 'M' 'H' ndM (by decide),
        durGroup_hit dm hne2 hd2 'M' ndM, durGroup_empty]
      simp [groupVal]
      omega
    · obtain ⟨hne2, hd2⟩ := goodGroup_some h2
      obtain ⟨hne3, hd3⟩ := goodGroup_some h3
      simp only [renderGroup, List.append_assoc, List.cons_append,
        List.singleton_append, List.nil_append, List.append_nil,
        durGroup_miss dm hd2 'M' 'H' ndM (by decide),
        durGroup_hit dm hne2 hd2 'M' ndM,
        durGroup_hit dsl hne3 hd3 'S' ndS]
      simp [groupVal]
      omega
    · obtain ⟨hne1, hd1⟩ := goodGroup_some h1
      simp only [renderGroup, List.append_assoc, List.cons_append,
        List.singleton_append, List.nil_append, List.append_nil,
        durGroup_hit dh hne1 hd1 'H' ndH, durGroup_empty]
      simp [groupVal]
      omega
    · obtain ⟨hne1, hd1⟩ := goodGroup_some h1
      obtain ⟨hne3, hd3⟩ := goodGroup_some h3
      simp only [renderGroup, List.append_assoc, List.cons_append,
        List.singleton_append, List.nil_append, List.append_nil,
        durGroup_hit dh hne1 hd1 'H' ndH,
        durGroup_miss dsl hd3 'S' 'M' ndS (by decide),
        durGroup_hit dsl hne3 hd3 'S' ndS]
      simp [groupVal]
      omega
    · obtain ⟨hne1, hd1⟩ := goodGroup_some h1
      obtain ⟨hne2, hd2⟩ := goodGroup_some h2
      simp only [renderGroup, List.append_assoc, List.cons_append,
        List.singleton_append, List.nil_append, List.append_nil,
        durGroup_hit dh hne1 hd1 'H' ndH,
        durGroup_hit dm hne2 hd2 'M' ndM, durGroup_empty]
      simp [groupVal]
      omega
    · obtain ⟨hne1, hd1⟩ := goodGroup_some h1
      obtain ⟨hne2, hd2⟩ := goodGroup_some h2
      obtain ⟨hne3, hd3⟩ := goodGroup_some h3
      simp only [renderGroup, List.append_assoc, List.cons_append,
        List.singleton_append, List.nil_append, List.append_nil,
        durGroup_hit dh hne1 hd1 'H' ndH,
        durGroup_hit dm hne2 hd2 'M' ndM,
        durGroup_hit dsl hne3 hd3 'S' ndS]
      simp [groupVal]
      omega
  · intro l hl
    rw [parseDurationChars.eq_def]
    split
    · rename_i t
      exact absurd rfl (hl t)
    · rfl

/-- Witness for the amended C3 theorem: the string PT2H is well formed
and parses to 7200 seconds. -/
theorem c3_parse_duration_amended_witness :
    goodGroup (some ['2']) = true ∧ parseDuration "PT2H" = 7200 := by
  refine ⟨by decide, ?_⟩
  have h := c3_parse_duration_amended.1 (some ['2']) none none
    (by decide) (by decide) (by decide)
  simpa [renderGroup, groupVal, digitsVal] using h

/-- Counterexample to claim C3 as stated: the input PT1M20Sx is
malformed (trailing garbage after the seconds group), yet
`_parse_duration` returns 80, not 0, because `re.match` only anchors the
pattern at the start of the string and ignores trailing characters. -/
theorem c3_counterexample :
    parseDuration "PT1M20Sx" = 80 ∧ (80 : Nat) ≠ 0 := by
  exact ⟨by decide, by decide⟩

/-- Statistics block of a video item as returned by the platform API;
every field may be absent.  The Python code applies `int()` to the raw
values, so they are modelled as integers. -/
structure VideoStatistics where
  viewCount : Option Int
  likeCount : Option Int
  commentCount : Option Int

/-- Snippet block of a video item.  `thumbnails` maps a quality name to
`some (some url)` (entry with a url), `some none` (entry without a
url field) or `none` (no entry). -/
structure VideoSnippet where
  title : Option String
  channelTitle : Option String
  channelId : Option String
  publishedAt : Option String
  tags : Option (List String)
  description : Option String
  thumbnails : String → Option (Option String)

/-- Content-details block of a video item. -/
structure VideoContentDetails where
  duration : Option String

/-- A video item of the platform API.  `video.get('snippet', {})` and
friends in the source are modelled by the all-optional fields of the
sub-records. -/
structure Video where
  id : String
  snippet : VideoSnippet
  contentDetails : VideoContentDetails
  statistics : VideoStatistics

/-- Statistics block of a channel item. -/
structure ChannelStats where
  subscriberCount : Option Int
  videoCount : Option Int
  viewCount : Option Int

/-- A previously persisted snapshot row for one video, as produced by
`get_previous_stats` (the `viewCount` key may in principle be absent;
the code reads it with `.get('viewCount', 0)`). -/
structure PrevStat where
  viewCount : Option Int
deriving DecidableEq

/-- Lookup in the optional `previous_stats` mapping.  Python tests
`previous_stats and video_id in previous_stats`: a `None` map never
matches, and an empty (falsy) dict contains no key, which coincides with
a lookup that finds nothing. -/
def lookupPrev (ps : Option (String → Option PrevStat)) (vid : String) :
    Option PrevStat :=
  match ps with
  | none => none
  | some f => f vid

/-- The formatted record built by `format_video_data` for one video.
The source field `engagement_ratio` is called `engagementRate` here. -/
structure FormattedVideo where
  video_id : String
  title : String
  channel_name : String
  channel_id : Option String
  url : String
  published_at : String
  view_count : Int
  like_count : Int
  comment_count : Int
  description : String
  tags : String
  subscriber_count : Int
  engagementRate : ℚ
  duration_seconds : Nat
  video_type : String
  estimated_24h_views : Int
  view_change : Int
  thumbnail_url : String
  timestamp : String

/-- First thumbnail url found scanning the given quality names, as the
loop over `['maxres', 'high', 'medium', 'default', 'standard']`. -/
def firstThumb (th : String → Option (Option String)) : List String → String
  | [] => ""
  | q :: rest =>
    match th q with
    | some (some u) => u
    | _ => firstThumb th rest

/-- Embedding of the per-video body of
`YouTubeDataAPI.format_video_data` (get_video_data.py, lines 241-317).
`isoDate` is the oracle for `datetime.fromisoformat ∘ strftime`
(`none` models the parse raising), `now` is the oracle for
`datetime.now().strftime(...)`, `channels` is the `channels_data`
dictionary and `ps` the optional `previous_stats` dictionary. -/
def formatVideo (isoDate : String → Option String) (now : String)
    (channels : String → Option ChannelStats)
    (ps : Option (String → Option PrevStat)) (v : Video) : FormattedVideo :=
  let snippet := v.snippet
  let viewCount : Int := v.statistics.viewCount.getD 0
  let chStats : Option ChannelStats := snippet.channelId.bind channels
  let subCount : Int := (chStats.bind (fun st => st.subscriberCount)).getD 1
  let engagement : ℚ :=
    if 0 < subCount then pyRound2 ((viewCount : ℚ) / (subCount : ℚ)) else 0
  let durationSeconds := parseDuration (v.contentDetails.duration.getD "")
  let prev := lookupPrev ps v.id
  let viewChange : Int :=
    match prev with
    | none => 0
    | some p => viewCount - p.viewCount.getD 0
  let est24h : Int :=
    match prev with
    | none => 0
    | some _ => max 0 viewChange
  let rawPub := snippet.publishedAt.getD ""
  let pubAt := if rawPub = "" then "" else (isoDate rawPub).getD rawPub
  let tg := snippet.tags.getD []
  let tagsStr :=
    if tg = [] then ""
    else String.intercalate ", " (tg.take 5) ++ (if 5 < tg.length then "..." else "")
  let descr := snippet.description.getD ""
  let shortDescr := if 100 < descr.length then descr.take 100 ++ "..." else descr
  { video_id := v.id
    title := snippet.title.getD ""
    channel_name := snippet.channelTitle.getD ""
    channel_id := snippet.channelId
    url := "https://www.youtube.com/watch?v=" ++ v.id
    published_at := pubAt
    view_count := viewCount
    like_count := v.statistics.likeCount.getD 0
    comment_count := v.statistics.commentCount.getD 0
    description := shortDescr
    tags := tagsStr
    subscriber_count := subCount
    engagementRate := engagement
    duration_seconds := durationSeconds
    video_type := if durationSeconds < 90 then "short" else "long"
    estimated_24h_views := est24h
    view_change := viewChange
    thumbnail_url := firstThumb snippet.thumbnails
      ["maxres", "high", "medium", "default", "standard"]
    timestamp := now }

/-- Embedding of `YouTubeDataAPI.format_video_data`: the loop appends
one formatted record per input video, in order. -/
def formatVideoData (isoDate : String → Option String) (now : String)
    (channels : String → Option ChannelStats)
    (ps : Option (String → Option PrevStat)) (videos : List Video) :
    List FormattedVideo :=
  videos.map (formatVideo isoDate now channels ps)

/-- Claim C1: in `format_video_data`, every video of the batch
contributes its formatted record, and: with no prior snapshot for its
id in `previous_stats`, `view_change = 0` and
`estimated_24h_views = 0`; with a prior snapshot carrying
`view_count_prev`, `view_change = view_count - view_count_prev` and
`estimated_24h_views = max(0, view_change)`, so a negative delta is
clamped to zero. -/
theorem c1_view_delta (isoDate : String → Option String) (now : String)
    (channels : String → Option ChannelStats)
    (ps : Option (String → Option PrevStat)) (videos : List Video)
    (v : Video) (hv : v ∈ videos) :
    formatVideo isoDate now channels ps v ∈
      formatVideoData isoDate now channels ps videos ∧
    (lookupPrev ps v.id = none →
      (formatVideo isoDate now channels ps v).view_change = 0 ∧
      (formatVideo isoDate now channels ps v).estimated_24h_views = 0) ∧
    (∀ p, lookupPrev ps v.id = some p →
      (formatVideo isoDate now channels ps v).view_change
          = v.statistics.viewCount.getD 0 - p.viewCount.getD 0 ∧
      (formatVideo isoDate now channels ps v).estimated_24h_views
          = max 0 (v.statistics.viewCount.getD 0 - p.viewCount.getD 0)) := by
  refine ⟨List.mem_map_of_mem _ hv, ?_, ?_⟩
  · intro h
    constructor <;> simp [formatVideo, h]
  · intro p hp
    constructor <;> simp [formatVideo, hp]

/-- Witness video for claim C1: current view count 80. -/
def c1Vid : Video :=
  { id := "v1"
    snippet :=
      { title := none, channelTitle := none, channelId := none,
        publishedAt := none, tags := none, description := none,
        thumbnails := fun _ => none }
    contentDetails := { duration := none }
    statistics := { viewCount := some 80, likeCount := none, commentCount := none } }

/-- Witness previous-stats map for claim C1: video v1 had 100 views. -/
def c1Prev : Option (String → Option PrevStat) :=
  some fun s => if s = "v1" then some ⟨some 100⟩ else none

/-- Witness for claim C1: prior snapshot 100 views, current 80, so the
delta is -20 and the published estimate is clamped to 0. -/
theorem c1_view_delta_witness :
    c1Vid ∈ [c1Vid] ∧ lookupPrev c1Prev "v1" = some ⟨some 100⟩ ∧
    (formatVideo (fun _ => none) "" (fun _ => none) c1Prev c1Vid).view_change = -20 ∧
    (formatVideo (fun _ => none) "" (fun _ => none) c1Prev c1Vid).estimated_24h_views = 0 := by
  have h := (c1_view_delta (fun _ => none) "" (fun _ => none) c1Prev [c1Vid]
    c1Vid (List.mem_singleton.mpr rfl)).2.2 ⟨some 100⟩ (by decide)
  refine ⟨List.mem_singleton.mpr rfl, by decide, ?_, ?_⟩
  · rw [h.1]; decide
  · rw [h.2]; decide

/-- Witness video for the C2 theorems: 500 views, channel id ch. -/
def c2Vid : Video :=
  { id := "v2"
    snippet :=
      { title := none, channelTitle := none, channelId := some "ch",
        publishedAt := none, tags := none, description := none,
        thumbnails := fun _ => none }
    contentDetails := { duration := none }
    statistics := { viewCount := some 500, likeCount := none, commentCount := none } }

/-- Channel map reporting subscriberCount 0 for channel ch. -/
def c2Channels : String → Option ChannelStats :=
  fun c => if c = "ch" then some ⟨some 0, none, none⟩ else none

/-- Counterexample to claim C2 as stated: a channel whose statistics
report `subscriberCount = 0` is not treated as having one subscriber.
The code only uses the default 1 when the field is absent; a reported 0
falls into the `else 0` branch of the guard, so a video with 500 views
on such a channel gets engagement ratio 0, not 500. -/
theorem c2_counterexample :
    (formatVideo (fun _ => none) "" c2Channels none c2Vid).engagementRate = 0 ∧
    (0 : ℚ) ≠ 500 := by
  constructor
  · decide
  · norm_num

/-- Claim C2 (amended): in `format_video_data`,
`engagement_ratio = round(view_count / subscriber_count, 2)` where
`subscriber_count` is the reported value, defaulting to 1 only when the
channel statistics lack the `subscriberCount` field (or when the
channel lookup fails); when the reported count is 0 (or negative) the
guard yields engagement ratio 0 without dividing, so the ratio is
always defined and a reported `subscriber_count = 0` with
`view_count = 500` gives 0.0 rather than 500.0. -/
theorem c2_engagement_amended (isoDate : String → Option String) (now : String)
    (channels : String → Option ChannelStats)
    (ps : Option (String → Option PrevStat)) (v : Video) :
    ((v.snippet.channelId.bind channels).bind (fun st => st.subscriberCount) = none →
      (formatVideo isoDate now channels ps v).subscriber_count = 1 ∧
      (formatVideo isoDate now channels ps v).engagementRate
        = pyRound2 ((v.statistics.viewCount.getD 0 : Int) : ℚ)) ∧
    (∀ n : Int,
      (v.snippet.channelId.bind channels).bind (fun st => st.subscriberCount) = some n →
      (formatVideo isoDate now channels ps v).subscriber_count = n ∧
      (formatVideo isoDate now channels ps v).engagementRate
        = if 0 < n then pyRound2 (((v.statistics.viewCount.getD 0 : Int) : ℚ) / (n : ℚ))
          else 0) := by
  constructor
  · intro h
    refine ⟨by simp [formatVideo, h], ?_⟩
    simp [formatVideo, h]
  · intro n hn
    refine ⟨by simp [formatVideo, hn], ?_⟩
    by_cases h0 : 0 < n <;> simp [formatVideo, hn, h0]

/-- Channel map reporting subscriberCount 2 for channel ch2. -/
def c2GoodChannels : String → Option ChannelStats :=
  fun c => if c = "ch2" then some ⟨some 2, none, none⟩ else none

/-- Witness video for the amended C2 theorem: 10 views, channel ch2. -/
def c2GoodVid : Video :=
  { id := "v3"
    snippet :=
      { title := none, channelTitle := none, channelId := some "ch2",
        publishedAt := none, tags := none, description := none,
        thumbnails := fun _ => none }
    contentDetails := { duration := none }
    statistics := { viewCount := some 10, likeCount := none, commentCount := none } }

/-- Witness for the amended C2 theorem: a reported subscriber count of 2
with 10 views gives the rounded ratio of 10/2. -/
theorem c2_engagement_amended_witness :
    (c2GoodVid.snippet.channelId.bind c2GoodChannels).bind
        (fun st => st.subscriberCount) = some 2 ∧
    (formatVideo (fun _ => none) "" c2GoodChannels none c2GoodVid).subscriber_count = 2 ∧
    (formatVideo (fun _ => none) "" c2GoodChannels none c2GoodVid).engagementRate
      = if (0 : Int) < 2 then
          pyRound2 (((c2GoodVid.statistics.viewCount.getD 0 : Int) : ℚ) / ((2 : Int) : ℚ))
        else 0 := by
  have h := (c2_engagement_amended (fun _ => none) "" c2GoodChannels none c2GoodVid).2
    2 (by decide)
  exact ⟨by decide, h.1, h.2⟩

/-- Chunks of at most 50 ids, as the loop
`for i in range(0, len(video_ids), 50): batch_ids = video_ids[i:i+50]`
in `get_videos_details` (get_video_data.py, lines 109-110). -/
def chunks50 (l : List String) : List (List String) :=
  if h : l = [] then []
  else l.take 50 :: chunks50 (l.drop 50)
termination_by l.length
decreasing_by
  have hp : 0 < l.length := List.length_pos.mpr h
  simp only [List.length_drop]
  omega

/-- Cache update loop `for item in videos_response['items']:
self.video_cache[item['id']] = item` — each returned item is stored
under its own id, later items overwriting earlier ones. -/
def insertFetched (cache : String → Option Video) :
    List Video → (String → Option Video)
  | [] => cache
  | item :: rest =>
    insertFetched (fun k => if k = item.id then some item else cache k) rest

/-- Cache state after processing one chunk: the ids of the chunk that
miss the cache are fetched in one batch call and the response is merged
into the cache; if every chunk id is already cached no call is made.
`fetch` is the remote-call oracle (a call that raises `HttpError` is
modelled by an oracle response that misses the requested ids, leaving
them unresolved). -/
def chunkCache (fetch : List String → List Video)
    (cache : String → Option Video) (batch : List String) :
    String → Option Video :=
  if (batch.filter (fun vid => (cache vid).isNone)).isEmpty then cache
  else insertFetched cache (fetch (batch.filter (fun vid => (cache vid).isNone)))

/-- Body of the chunk loop of `get_videos_details` (get_video_data.py,
lines 109-137): per chunk, fetch the ids missing from the cache, merge
the response into the cache, then append every chunk id found in the
cache, in chunk order. -/
def getVideosDetailsGo (fetch : List String → List Video) :
    List (List String) → (String → Option Video) →
    List Video × (String → Option Video)
  | [], cache => ([], cache)
  | batch :: rest, cache =>
    (batch.filterMap (chunkCache fetch cache batch) ++
        (getVideosDetailsGo fetch rest (chunkCache fetch cache batch)).1,
      (getVideosDetailsGo fetch rest (chunkCache fetch cache batch)).2)

/-- Embedding of `YouTubeDataAPI.get_videos_details` (get_video_data.py,
lines 94-139), returning the result list together with the final
in-memory cache state. -/
def getVideosDetails (fetch : List String → List Video)
    (cache : String → Option Video) (ids : List String) :
    List Video × (String → Option Video) :=
  if ids = [] then ([], cache)
  else getVideosDetailsGo fetch (chunks50 ids) cache

theorem chunks50_flatten (l : List String) : (chunks50 l).flatten = l := by
  induction l using chunks50.induct with
  | case1 => simp [chunks50]
  | case2 l h ih =>
    rw [chunks50]
    simp only [h, dite_false]
    simp [ih]

theorem chunks50_length (l : List String) :
    (chunks50 l).length = (l.length + 49) / 50 := by
  induction l using chunks50.induct with
  | case1 => simp [chunks50]
  | case2 l h ih =>
    have hp : 0 < l.length := List.length_pos.mpr h
    rw [chunks50]
    simp only [h, dite_false, List.length_cons, ih, List.length_drop]
    omega

theorem chunks50_size (l : List String) : ∀ c ∈ chunks50 l, c.length ≤ 50 := by
  induction l using chunks50.induct with
  | case1 => simp [chunks50]
  | case2 l h ih =>
    rw [chunks50]
    simp only [h, dite_false, List.mem_cons]
    rintro c (rfl | hc)
    · simp [List.length_take]
    · exact ih c hc

/-- The cache only ever stores an item under that item's own id. -/
def wellKeyed (cache : String → Option Video) : Prop :=
  ∀ k v, cache k = some v → v.id = k

theorem insertFetched_wellKeyed (items : List Video) :
    ∀ cache, wellKeyed cache → wellKeyed (insertFetched cache items) := by
  induction items with
  | nil => intro cache h; exact h
  | cons item rest ih =>
    intro cache h
    refine ih _ ?_
    intro k v hv
    by_cases hk : k = item.id
    · simp [hk] at hv
      rw [← hv]; exact hk.symm
    · simp [hk] at hv
      exact h k v hv

theorem insertFetched_mono (items : List Video) :
    ∀ cache k, (cache k).isSome → ((insertFetched cache items) k).isSome := by
  induction items with
  | nil => intro cache k h; exact h
  | cons item rest ih =>
    intro cache k h
    refine ih _ k ?_
    by_cases hk : k = item.id <;> simp [hk, h]

theorem insertFetched_covers (items : List Video) :
    ∀ cache k, (∃ v ∈ items, v.id = k) →
      ((insertFetched cache items) k).isSome := by
  induction items with
  | nil =>
    intro cache k h
    obtain ⟨v, hv, _⟩ := h
    exact absurd hv (List.not_mem_nil v)
  | cons item rest ih =>
    intro cache k h
    obtain ⟨v, hv, hk⟩ := h
    rcases List.mem_cons.mp hv with rfl | hv2
    · refine insertFetched_mono rest _ k ?_
      simp [hk]
    · exact ih _ k ⟨v, hv2, hk⟩

theorem chunkCache_wellKeyed (fetch : List String → List Video)
    (cache : String → Option Video) (batch : List String)
    (hkeyed : wellKeyed cache) : wellKeyed (chunkCache fetch cache batch) := by
  unfold chunkCache
  split
  · exact hkeyed
  · exact insertFetched_wellKeyed _ cache hkeyed

theorem chunkCache_covers (fetch : List String → List Video)
    (hfetch : ∀ req, ∀ k ∈ req, ∃ v ∈ fetch req, v.id = k)
    (cache : String → Option Video) (batch : List String) :
    ∀ k ∈ batch, ((chunkCache fetch cache batch) k).isSome := by
  intro k hk
  unfold chunkCache
  by_cases hck : (cache k).isSome
  · split
    · exact hck
    · exact insertFetched_mono _ cache k hck
  · have hknone : (cache k) = none := Option.not_isSome_iff_eq_none.mp hck
    have hkmem : k ∈ batch.filter (fun vid => (cache vid).isNone) := by
      rw [List.mem_filter]
      simp [hk, hknone]
    have hne : ¬ (batch.filter (fun vid => (cache vid).isNone)).isEmpty := by
      rw [List.isEmpty_iff]
      intro hempty
      rw [hempty] at hkmem
      exact List.not_mem_nil k hkmem
    rw [if_neg hne]
    exact insertFetched_covers _ cache k (hfetch _ k hkmem)

theorem filterMap_full (f : String → Option Video) :
    ∀ l : List String, (∀ a ∈ l, ∃ v, f a = some v ∧ v.id = a) →
      (l.filterMap f).map Video.id = l := by
  intro l
  induction l with
  | nil => intro; rfl
  | cons a rest ih =>
    intro h
    obtain ⟨v, hv, hid⟩ := h a (List.mem_cons_self a rest)
    rw [List.filterMap_cons, hv]
    simp only [List.map_cons, hid]
    rw [ih (fun b hb => h b (List.mem_cons_of_mem a hb))]

theorem getVideosDetailsGo_ids (fetch : List String → List Video)
    (hfetch : ∀ req, ∀ k ∈ req, ∃ v ∈ fetch req, v.id = k) :
    ∀ (batches : List (List String)) (cache : String → Option Video),
      wellKeyed cache →
      (getVideosDetailsGo fetch batches cache).1.map Video.id = batches.flatten := by
  intro batches
  induction batches with
  | nil => intro cache _; simp [getVideosDetailsGo]
  | cons batch rest ih =>
    intro cache hkeyed
    have hkeyed1 := chunkCache_wellKeyed fetch cache batch hkeyed
    have hfull : ∀ a ∈ batch,
        ∃ v, (chunkCache fetch cache batch) a = some v ∧ v.id = a := by
      intro a ha
      have hs := chunkCache_covers fetch hfetch cache batch a ha
      obtain ⟨v, hv⟩ := Option.isSome_iff_exists.mp hs
      exact ⟨v, hv, hkeyed1 a v hv⟩
    rw [getVideosDetailsGo]
    simp only [List.map_append, List.flatten_cons]
    rw [filterMap_full _ batch hfull, ih _ hkeyed1]

/-- Claim C4: `get_videos_details` splits N distinct input ids into
ceil(N/50) chunks of at most 50 that partition the input; assuming
every id is resolvable (the fetch oracle returns an item for every
requested id, and ids already cached are stored under their own key),
every input id contributes exactly one record to the output, in the
original input order — the cache deduplication neither drops nor
duplicates entities. -/
theorem c4_get_videos_details (fetch : List String → List Video)
    (cache : String → Option Video) (ids : List String)
    (hids : ids.Nodup)
    (hkeyed : wellKeyed cache)
    (hfetch : ∀ req, ∀ k ∈ req, ∃ v ∈ fetch req, v.id = k) :
    (getVideosDetails fetch cache ids).1.map Video.id = ids ∧
    (chunks50 ids).flatten = ids ∧
    (chunks50 ids).length = (ids.length + 49) / 50 ∧
    (∀ c ∈ chunks50 ids, c.length ≤ 50) := by
  refine ⟨?_, chunks50_flatten ids, chunks50_length ids, chunks50_size ids⟩
  unfold getVideosDetails
  by_cases h : ids = []
  · simp [h]
  · rw [if_neg h, getVideosDetailsGo_ids fetch hfetch _ cache hkeyed, chunks50_flatten]

/-- Witness for claim C4: two distinct ids, an empty cache and a fetch
oracle answering every request, give back one record per id in input
order, in a single chunk. -/
theorem c4_get_videos_details_witness :
    ([ "a", "b" ] : List String).Nodup ∧
    (getVideosDetails
        (fun req => req.map (fun k =>
          { id := k
            snippet :=
              { title := none, channelTitle := none, channelId := none,
                publishedAt := none, tags := none, description := none,
                thumbnails := fun _ => none }
            contentDetails := { duration := none }
            statistics := { viewCount := none, likeCount := none,
                            commentCount := none } }))
        (fun _ => none) ["a", "b"]).1.map Video.id = ["a", "b"] ∧
    (chunks50 ["a", "b"]).length = 1 := by
  refine ⟨by decide, ?_, ?_⟩
  · refine (c4_get_videos_details _ (fun _ => none) ["a", "b"] (by decide)
      (fun k v hv => by simp at hv) ?_).1
    intro req k hk
    refine ⟨_, List.mem_map_of_mem _ hk, rfl⟩
  · rw [chunks50_length]
    decide

/-- Pairwise day gaps of a (descending-sorted) list of publish
timestamps in seconds: `(publish_dates[i] - publish_dates[i+1]).days`
— Python `timedelta.days` is floor division of the difference by
86400 seconds. -/
def dayGaps : List Int → List Int
  | a :: b :: rest => (a - b).fdiv 86400 :: dayGaps (b :: rest)
  | _ => []

/-- Average interval `sum(intervals) / len(intervals)` of the pairwise
day gaps of a sorted timestamp list (a Python float division, modelled
exactly in ℚ). -/
def avgGaps (sorted : List Int) : ℚ :=
  ((dayGaps sorted).sum : ℚ) / ((dayGaps sorted).length : ℚ)

/-- Descending order on timestamps, as `publish_dates.sort(reverse=True)`. -/
def descOrd (a b : Int) : Prop := b ≤ a

instance : DecidableRel descOrd := fun a b => inferInstanceAs (Decidable (b ≤ a))

/-- Embedding of the posting-pace computation of
`ChannelAnalyzer.fetch_channel_stats` (channel_analyzer.py, lines
67-91) for one channel.  The input is the channel's latest-video list,
each entry being the video's parseable publish timestamp (`some t`,
seconds) or `none` when `publishedAt` is missing or `date_parse`
raises.  Python's list sort is stable and is modelled by
`insertionSort`.  The result is `some (avg_days_between_videos,
videos_per_month)` or `none` when the guards fail, in which case the
`posting_pace` key is absent from the channel's details. -/
def postingPace (latestVideos : List (Option Int)) : Option (ℚ × ℚ) :=
  if 2 ≤ latestVideos.length then
    let dates := latestVideos.filterMap id
    if 2 ≤ dates.length then
      let sorted := List.insertionSort descOrd dates
      let avg := avgGaps sorted
      some (pyRound1 avg, pyRound1 (30 / max avg 1))
    else none
  else none

/-- Claim C5 (amended): the posting pace of a channel is present iff
its latest videos yield at least 2 parseable publish timestamps (with 0
or 1 the fields are absent, not zero); when present, the timestamps are
sorted descending and the stored fields are
`round(avg, 1)` and `round(30 / max(avg, 1), 1)` where `avg` is the
unrounded average of the pairwise day gaps of the sorted list. -/
theorem c5_posting_pace (lv : List (Option Int)) :
    (postingPace lv = none ↔ (lv.filterMap id).length < 2) ∧
    (∀ q₁ q₂, postingPace lv = some (q₁, q₂) →
      ∃ s : List Int, s.Perm (lv.filterMap id) ∧ s.Sorted descOrd ∧
        q₁ = pyRound1 (avgGaps s) ∧ q₂ = pyRound1 (30 / max (avgGaps s) 1)) := by
  have hlen : (lv.filterMap id).length ≤ lv.length := by
    simpa using List.length_filterMap_le id lv
  constructor
  · constructor
    · intro h
      by_contra hlt
      push_neg at hlt
      have h2 : 2 ≤ lv.length := le_trans hlt hlen
      simp only [postingPace, if_pos h2, if_pos hlt] at h
      exact Option.noConfusion h
    · intro hlt
      by_cases h2 : 2 ≤ lv.length
      · have : ¬ 2 ≤ (lv.filterMap id).length := by omega
        simp only [postingPace, if_pos h2, if_neg this]
      · simp only [postingPace, if_neg h2]
  · intro q₁ q₂ h
    by_cases h2 : 2 ≤ lv.length
    · by_cases hd : 2 ≤ (lv.filterMap id).length
      · simp only [postingPace, if_pos h2, if_pos hd, Option.some_inj, Prod.mk.injEq] at h
        refine ⟨List.insertionSort descOrd (lv.filterMap id),
          List.perm_insertionSort descOrd _, ?_, h.1.symm, h.2.symm⟩
        have htot : IsTotal Int descOrd := ⟨fun a b => le_total b a⟩
        have htrans : IsTrans Int descOrd := ⟨fun a b c hab hbc => le_trans hbc hab⟩
        exact List.sorted_insertionSort descOrd _
      · simp only [postingPace, if_pos h2, if_neg hd] at h
        exact Option.noConfusion h
    · simp only [postingPace, if_neg h2] at h
      exact Option.noConfusion h

/-- Witness for the amended C5 theorem: two timestamps one day apart
give pace fields (1.0, 30.0). -/
theorem c5_posting_pace_witness :
    postingPace [some 86400, some 0] = some (1, 30) ∧
    (∃ s : List Int,
      s.Perm (([some 86400, some 0] : List (Option Int)).filterMap id) ∧
      s.Sorted descOrd ∧
      (1 : ℚ) = pyRound1 (avgGaps s) ∧ (30 : ℚ) = pyRound1 (30 / max (avgGaps s) 1)) := by
  have hgaps : dayGaps [86400, 0] = [1] := by decide
  have havg : avgGaps [86400, 0] = 1 := by
    rw [avgGaps, hgaps]
    norm_num
  have hround1 : pyRound1 1 = 1 := by
    rw [pyRound1, roundHalfEven]
    norm_num
  have hround30 : pyRound1 30 = 30 := by
    rw [pyRound1, roundHalfEven]
    norm_num
  have hsort : List.insertionSort descOrd [86400, 0] = ([86400, 0] : List Int) := by
    decide
  have hpace : postingPace [some 86400, some 0] = some (1, 30) := by
    have hfm : ([some 86400, some 0] : List (Option Int)).filterMap id
        = ([86400, 0] : List Int) := by decide
    simp only [postingPace, hfm, hsort, havg]
    norm_num [hround1, hround30]
  exact ⟨hpace, (c5_posting_pace [some 86400, some 0]).2 1 30 hpace⟩

/-- Counterexample to claim C5 as stated: four parseable timestamps 2
days, 1 day, 0 days and 0 days (with day gaps 1, 1, 0) have average gap
2/3, but the stored `avg_days_between_videos` is `round(2/3, 1) = 0.7`,
not the average itself: the code rounds the average to one decimal
before storing it, which the claim omits. -/
theorem c5_counterexample :
    (postingPace [some 172800, some 86400, some 0, some 0]).map Prod.fst
      = some (7/10) ∧
    avgGaps [172800, 86400, 0, 0] = 2/3 ∧ (7/10 : ℚ) ≠ 2/3 := by
  have hgaps : dayGaps [172800, 86400, 0, 0] = [1, 1, 0] := by decide
  have havg : avgGaps [172800, 86400, 0, 0] = 2/3 := by
    rw [avgGaps, hgaps]
    norm_num
  have hfloor : ⌊(2/3 : ℚ) * 10⌋ = 6 := by
    rw [Int.floor_eq_iff]
    norm_num
  have hround : pyRound1 (2/3) = 7/10 := by
    rw [pyRound1, roundHalfEven]
    rw [hfloor]
    norm_num
  have hsort : List.insertionSort descOrd [172800, 86400, 0, 0]
      = ([172800, 86400, 0, 0] : List Int) := by decide
  have hfm : ([some 172800, some 86400, some 0, some 0] : List (Option Int)).filterMap id
      = ([172800, 86400, 0, 0] : List Int) := by decide
  refine ⟨?_, havg, by norm_num⟩
  simp only [postingPace, hfm, hsort, havg]
  norm_num [hround]

/-- One row of the `video_history` table, with the date already parsed
to a comparable instant (`pd.to_datetime`; a row whose date fails to
parse makes the whole load fall back to the empty map, modelled with
the error oracle of the C7 theorems). -/
structure HistRow where
  vid : String
  views : Int
  date : Int
deriving DecidableEq

/-- Ascending-by-date order used by `df.sort_values('date')`. -/
def byDate (a b : HistRow) : Prop := a.date ≤ b.date

instance : DecidableRel byDate := fun a b => inferInstanceAs (Decidable (a.date ≤ b.date))

instance : IsTotal HistRow byDate := ⟨fun a b => le_total a.date b.date⟩

instance : IsTrans HistRow byDate := ⟨fun _ _ _ h1 h2 => le_trans h1 h2⟩

/-- Row filter for one video id. -/
def vidMatch (v : String) (r : HistRow) : Bool := r.vid == v

/-- Embedding of `drop_duplicates('video_id', keep='last')`: a row is
kept iff no later row carries the same video id, and kept rows stay in
order. -/
def dropDupKeepLast : List HistRow → List HistRow
  | [] => []
  | r :: rs =>
    if rs.any (fun x => x.vid == r.vid) then dropDupKeepLast rs
    else r :: dropDupKeepLast rs

/-- Embedding of the dict-building loop
`for _, row in latest_records.iterrows(): stats_dict[row['video_id']] =
{'viewCount': row['view_count'], 'date': row['date']}`. -/
def buildStats : List HistRow → (String → Option (Int × Int)) → String → Option (Int × Int)
  | [], m => m
  | r :: rs, m =>
    buildStats rs (fun k => if k = r.vid then some (r.views, r.date) else m k)

/-- The contract pandas documents for `df.sort_values('date')` with the
default sort kind: the result is a permutation of the input that is
sorted by date.  The default kind (`quicksort`) is documented as *not*
stable, so the relative order of equal-date rows is unspecified; any
function satisfying this contract is an admissible behaviour of the
sort. -/
def IsDateSort (sortFn : List HistRow → List HistRow) : Prop :=
  ∀ rows, (sortFn rows).Perm rows ∧ (sortFn rows).Sorted byDate

/-- Embedding of the row-selection core of
`GoogleSheetsManager.get_previous_stats` (update_gsheet.py, lines
190-202): sort the history rows by date, keep the last row per video
id, and build the id → (viewCount, date) dict.  Because pandas'
default sort kind documents no tie order, the sort implementation is a
parameter `sortFn`, constrained in the theorems only by the documented
contract `IsDateSort`. -/
def previousStatsOfRows (sortFn : List HistRow → List HistRow)
    (rows : List HistRow) : String → Option (Int × Int) :=
  buildStats (dropDupKeepLast (sortFn rows)) (fun _ => none)

/-- One admissible date sort: a stable sort of the input (equal-date
rows keep their insertion order). -/
def stableDateSort (rows : List HistRow) : List HistRow :=
  List.insertionSort byDate rows

/-- Another admissible date sort: a stable sort of the reversed input
(equal-date rows end up in reverse insertion order).  Both directions
satisfy the documented contract of `sort_values`. -/
def tieReversingSort (rows : List HistRow) : List HistRow :=
  List.insertionSort byDate rows.reverse

theorem vidMatch_iff (v : String) (r : HistRow) : vidMatch v r = true ↔ r.vid = v := by
  simp [vidMatch]

theorem getLast?_cons_ne {α : Type} (a : α) {l : List α} (h : l ≠ []) :
    (a :: l).getLast? = l.getLast? := by
  cases l with
  | nil => exact absurd rfl h
  | cons b bs => exact List.getLast?_cons_cons

theorem buildStats_eq (v : String) :
    ∀ (l : List HistRow) (m : String → Option (Int × Int)),
      buildStats l m v =
        ((l.filter (vidMatch v)).getLast?).elim (m v) (fun r => some (r.views, r.date)) := by
  intro l
  induction l with
  | nil => intro m; rfl
  | cons r rs ih =>
    intro m
    rw [buildStats, ih, List.filter_cons]
    cases hlast : (rs.filter (vidMatch v)).getLast? with
    | some w =>
      have hne : rs.filter (vidMatch v) ≠ [] := by
        intro hnil
        rw [hnil] at hlast
        exact Option.noConfusion hlast
      by_cases hm : vidMatch v r
      · rw [if_pos hm, getLast?_cons_ne r hne, hlast]
        rfl
      · rw [if_neg hm, hlast]
        rfl
    | none =>
      have hnil : rs.filter (vidMatch v) = [] := by
        cases hf : rs.filter (vidMatch v) with
        | nil => rfl
        | cons c cs =>
          rw [hf] at hlast
          cases hlast2 : (c :: cs).getLast? with
          | none =>
            have := List.getLast?_isSome (l := c :: cs)
            rw [hlast2] at this
            simp at this
          | some d => rw [hlast2] at hlast; exact Option.noConfusion hlast
      by_cases hm : vidMatch v r
      · rw [if_pos hm, hnil]
        have hv : r.vid = v := (vidMatch_iff v r).mp hm
        simp [hv]
      · rw [if_neg hm, hnil]
        have hv : ¬ r.vid = v := fun he => hm ((vidMatch_iff v r).mpr he)
        simp [Ne.symm hv]

theorem dropDup_getLast? (v : String) :
    ∀ l : List HistRow,
      ((dropDupKeepLast l).filter (vidMatch v)).getLast?
        = (l.filter (vidMatch v)).getLast? := by
  intro l
  induction l with
  | nil => rfl
  | cons r rs ih =>
    rw [dropDupKeepLast]
    by_cases hany : rs.any (fun x => x.vid == r.vid)
    · rw [if_pos hany, ih, List.filter_cons]
      by_cases hm : vidMatch v r
      · rw [if_pos hm]
        obtain ⟨x, hx, hxe⟩ := List.any_eq_true.mp hany
        have hxv : vidMatch v x = true := by
          rw [vidMatch_iff]
          rw [beq_iff_eq] at hxe
          rw [hxe]
          exact (vidMatch_iff v r).mp hm
        have hne : rs.filter (vidMatch v) ≠ [] := by
          intro hnil
          rw [List.filter_eq_nil_iff] at hnil
          exact hnil x hx hxv
        exact (getLast?_cons_ne r hne).symm
      · rw [if_neg hm]
    · rw [if_neg hany, List.filter_cons, List.filter_cons]
      by_cases hm : vidMatch v r
      · rw [if_pos hm, if_pos hm]
        have h1 : rs.filter (vidMatch v) = [] := by
          rw [List.filter_eq_nil_iff]
          intro a ha hpa
          apply hany
          rw [List.any_eq_true]
          refine ⟨a, ha, ?_⟩
          rw [beq_iff_eq]
          rw [vidMatch_iff] at hpa hm
          rw [hpa, hm]
        have h2 : (dropDupKeepLast rs).filter (vidMatch v) = [] := by
          have := ih
          rw [h1] at this
          simp only [List.getLast?_nil] at this
          cases hf : (dropDupKeepLast rs).filter (vidMatch v) with
          | nil => rfl
          | cons c cs =>
            rw [hf] at this
            have hs := List.getLast?_isSome (l := c :: cs)
            rw [this] at hs
            simp at hs
        rw [h1, h2]
      · rw [if_neg hm, if_neg hm]
        exact ih

theorem getLast?_sorted_max :
    ∀ l : List HistRow, l.Sorted byDate →
      ∀ w, l.getLast? = some w → ∀ x ∈ l, x.date ≤ w.date := by
  intro l
  induction l with
  | nil => intro _ w hw; exact absurd hw (by simp)
  | cons a as ih =>
    intro hsorted w hw x hx
    obtain ⟨hall, htail⟩ := List.sorted_cons.mp hsorted
    cases has : as with
    | nil =>
      rw [has] at hw
      simp only [List.getLast?_singleton, Option.some_inj] at hw
      rcases List.mem_cons.mp hx with rfl | hx2
      · rw [hw]
      · rw [has] at hx2
        exact absurd hx2 (List.not_mem_nil x)
    | cons b bs =>
      have hne : as ≠ [] := by rw [has]; exact List.cons_ne_nil b bs
      rw [getLast?_cons_ne a hne] at hw
      have hwmem : w ∈ as := List.mem_of_mem_getLast? (by rw [hw]; exact rfl)
      rcases List.mem_cons.mp hx with rfl | hx2
      · exact hall w hwmem
      · exact ih htail w hw x hx2

theorem previousStats_eq (sortFn : List HistRow → List HistRow)
    (rows : List HistRow) (v : String) :
    previousStatsOfRows sortFn rows v
      = (((sortFn rows).filter (vidMatch v)).getLast?).map
          (fun r => (r.views, r.date)) := by
  rw [previousStatsOfRows, buildStats_eq, dropDup_getLast?]
  cases ((sortFn rows).filter (vidMatch v)).getLast? <;> rfl

theorem stableDateSort_isDateSort : IsDateSort stableDateSort := by
  intro rows
  exact ⟨List.perm_insertionSort byDate rows, List.sorted_insertionSort byDate rows⟩

theorem tieReversingSort_isDateSort : IsDateSort tieReversingSort := by
  intro rows
  exact ⟨(List.perm_insertionSort byDate rows.reverse).trans (List.reverse_perm rows),
    List.sorted_insertionSort byDate rows.reverse⟩

/-- Claim C6 (amended): for every sort implementation satisfying the
documented contract of `sort_values('date')` (a date-sorted
permutation; pandas' default sort kind is not stable, so no tie order
is promised), `get_previous_stats` keeps for each video id a row of
that id carrying its most recent date: every produced entry is the
payload of a maximal-date row of that id, an entry is absent exactly
when the id has no rows, and when the maximal-date row of an id is
unique the result is exactly that row's payload, regardless of the
rows' order in the log.  Which row wins an equal-date tie is not
specified (see the counterexample theorem). -/
theorem c6_get_previous_stats (sortFn : List HistRow → List HistRow)
    (hsort : IsDateSort sortFn) (rows : List HistRow) (v : String) :
    (∀ p, previousStatsOfRows sortFn rows v = some p →
      ∃ r ∈ rows, r.vid = v ∧ p = (r.views, r.date) ∧
        ∀ r2 ∈ rows, r2.vid = v → r2.date ≤ r.date) ∧
    (previousStatsOfRows sortFn rows v = none ↔ ∀ r ∈ rows, r.vid ≠ v) ∧
    (∀ r ∈ rows, r.vid = v →
      (∀ r2 ∈ rows, r2.vid = v → r2 ≠ r → r2.date < r.date) →
      previousStatsOfRows sortFn rows v = some (r.views, r.date)) := by
  obtain ⟨hperm, hsorted⟩ := hsort rows
  have hfsorted : ((sortFn rows).filter (vidMatch v)).Sorted byDate :=
    List.Pairwise.sublist (List.filter_sublist (sortFn rows)) hsorted
  have hmax : ∀ w, ((sortFn rows).filter (vidMatch v)).getLast? = some w →
      w ∈ rows ∧ w.vid = v ∧ ∀ r2 ∈ rows, r2.vid = v → r2.date ≤ w.date := by
    intro w hw
    have hwf : w ∈ (sortFn rows).filter (vidMatch v) :=
      List.mem_of_mem_getLast? (by rw [hw]; exact rfl)
    obtain ⟨hwS, hwv⟩ := List.mem_filter.mp hwf
    refine ⟨hperm.mem_iff.mp hwS, (vidMatch_iff v w).mp hwv, ?_⟩
    intro r2 hr2 hr2v
    have hr2S : r2 ∈ sortFn rows := hperm.mem_iff.mpr hr2
    have hr2f : r2 ∈ (sortFn rows).filter (vidMatch v) :=
      List.mem_filter.mpr ⟨hr2S, (vidMatch_iff v r2).mpr hr2v⟩
    exact getLast?_sorted_max _ hfsorted w hw r2 hr2f
  refine ⟨?_, ?_, ?_⟩
  · intro p hp
    rw [previousStats_eq] at hp
    obtain ⟨w, hw, hpw⟩ := Option.map_eq_some'.mp hp
    obtain ⟨hwrows, hwv, hwmax⟩ := hmax w hw
    exact ⟨w, hwrows, hwv, hpw.symm, hwmax⟩
  · rw [previousStats_eq, Option.map_eq_none', List.getLast?_eq_none_iff,
      List.filter_eq_nil_iff]
    constructor
    · intro h r hr hrv
      exact h r (hperm.mem_iff.mpr hr) ((vidMatch_iff v r).mpr hrv)
    · intro h r hrS hrv
      exact h r (hperm.mem_iff.mp hrS) ((vidMatch_iff v r).mp hrv)
  · intro r hr hrv hstrict
    rw [previousStats_eq]
    have hrf : r ∈ (sortFn rows).filter (vidMatch v) :=
      List.mem_filter.mpr ⟨hperm.mem_iff.mpr hr, (vidMatch_iff v r).mpr hrv⟩
    have hne : (sortFn rows).filter (vidMatch v) ≠ [] := by
      intro hnil
      rw [hnil] at hrf
      exact List.not_mem_nil r hrf
    cases hw : ((sortFn rows).filter (vidMatch v)).getLast? with
    | none => exact absurd (List.getLast?_eq_none_iff.mp hw) hne
    | some w =>
      obtain ⟨hwrows, hwv, hwmax⟩ := hmax w hw
      have hwr : w = r := by
        by_contra hne2
        have hlt : w.date < r.date := hstrict w hwrows hwv hne2
        have hge : r.date ≤ w.date := hwmax r hr hrv
        exact absurd hge (not_le.mpr hlt)
      rw [hwr]
      rfl

/-- Witness for the amended C6 theorem: the claim's own example — rows
for v1 at dates 1 (views 10) and 3 (views 40), with a unique maximal
date — yields {viewCount 40, date 3} in either file order, under the
stable sort, which satisfies the pandas contract. -/
theorem c6_get_previous_stats_witness :
    IsDateSort stableDateSort ∧
    previousStatsOfRows stableDateSort
      [⟨"v1", 10, 1⟩, ⟨"v1", 40, 3⟩] "v1" = some (40, 3) ∧
    previousStatsOfRows stableDateSort
      [⟨"v1", 40, 3⟩, ⟨"v1", 10, 1⟩] "v1" = some (40, 3) := by
  refine ⟨stableDateSort_isDateSort, ?_, ?_⟩
  · exact (c6_get_previous_stats stableDateSort stableDateSort_isDateSort
      [⟨"v1", 10, 1⟩, ⟨"v1", 40, 3⟩] "v1").2.2 ⟨"v1", 40, 3⟩ (by decide)
      (by decide) (by decide)
  · exact (c6_get_previous_stats stableDateSort stableDateSort_isDateSort
      [⟨"v1", 40, 3⟩, ⟨"v1", 10, 1⟩] "v1").2.2 ⟨"v1", 40, 3⟩ (by decide)
      (by decide) (by decide)

/-- Counterexample to claim C6 as stated: its equal-dates clause
("the later-inserted row wins") is not guaranteed by the program.  Two
rows for v1 with the same date (views 10 inserted first, views 40
inserted last) are resolved differently by two sort implementations
that both satisfy the documented `sort_values` contract: a stable sort
keeps the later-inserted row (views 40), while an equally admissible
tie-reversing sort keeps the earlier one (views 10) — the code's
default non-stable sort promises neither. -/
theorem c6_counterexample :
    IsDateSort stableDateSort ∧
    IsDateSort tieReversingSort ∧
    previousStatsOfRows stableDateSort
      [⟨"v1", 10, 5⟩, ⟨"v1", 40, 5⟩] "v1" = some (40, 5) ∧
    previousStatsOfRows tieReversingSort
      [⟨"v1", 10, 5⟩, ⟨"v1", 40, 5⟩] "v1" = some (10, 5) ∧
    (some ((10 : Int), (5 : Int)) : Option (Int × Int)) ≠ some (40, 5) := by
  exact ⟨stableDateSort_isDateSort, tieReversingSort_isDateSort,
    by decide, by decide, by decide⟩

/-- One raw row of the worksheet as returned by `get_all_records`, with
the date still an unparsed cell value. -/
structure RawHistRow where
  vid : String
  views : Int
  date : String
deriving DecidableEq

/-- Oracle for everything `get_previous_stats` does up to obtaining the
table: looking up the worksheet, creating it when absent, and calling
`get_all_records`.  `sheetMissing b` is a raised `WorksheetNotFound`
(`b` says whether the subsequent `add_worksheet`/`append_row` calls
succeed; when they raise, the outer handler catches it).  `readError`
is any other I/O or auth error.  `records cols rows` is a successful
read producing a frame with column set `cols`. -/
inductive HistoryRead where
  | sheetMissing (createOk : Bool)
  | readError
  | records (cols : List String) (rows : List RawHistRow)

/-- Parse every date cell with `pd.to_datetime`; the oracle `dateParse`
returns `none` when parsing raises, which aborts the whole conversion
(the inner `except` then yields the empty map). -/
def allParsed (dateParse : String → Option Int) :
    List RawHistRow → Option (List HistRow)
  | [] => some []
  | r :: rs =>
    match dateParse r.date, allParsed dateParse rs with
    | some d, some rest => some (⟨r.vid, r.views, d⟩ :: rest)
    | _, _ => none

/-- Embedding of the whole of `GoogleSheetsManager.get_previous_stats`
(update_gsheet.py, lines 146-209), with its nested try/except blocks:
every failure path — missing sheet, read error, empty table, missing
required columns, unparseable dates — degrades to the empty map, and
only a well-formed table reaches the row-selection pipeline.  `sortFn`
is the sort implementation used by that pipeline (see `IsDateSort`). -/
def getPreviousStats (sortFn : List HistRow → List HistRow)
    (dateParse : String → Option Int) (read : HistoryRead) :
    String → Option (Int × Int) :=
  match read with
  | .sheetMissing _ => fun _ => none
  | .readError => fun _ => none
  | .records cols rows =>
    if rows = [] then fun _ => none
    else if "date" ∈ cols ∧ "video_id" ∈ cols then
      match allParsed dateParse rows with
      | some parsed => previousStatsOfRows sortFn parsed
      | none => fun _ => none
    else fun _ => none

/-- Oracle for the sheet calls of the two update operations: `ok` means
every call succeeded, `err` that some call raised (worksheet lookup,
worksheet creation, clearing, or writing). -/
inductive SheetOp where
  | ok
  | err

/-- Embedding of `GoogleSheetsManager.update_video_history`
(update_gsheet.py, lines 211-253).  The result is the list of appended
`(video_id, view_count, date)` rows, or `none` when the update was
skipped (empty input, or any error caught by the handler). -/
def updateVideoHistory (outcome : SheetOp) (today : String)
    (videos : List FormattedVideo) : Option (List (String × Int × String)) :=
  if videos.isEmpty then none
  else
    match outcome with
    | .err => none
    | .ok => some (videos.map (fun v => (v.video_id, v.view_count, today)))

/-- Embedding of `GoogleSheetsManager.update_current_data`
(update_gsheet.py, lines 255-287).  The result is the new full content
of the `current_data` sheet, or `none` when the replace was skipped. -/
def updateCurrentData (outcome : SheetOp) (videos : List FormattedVideo) :
    Option (List FormattedVideo) :=
  if videos.isEmpty then none
  else
    match outcome with
    | .err => none
    | .ok => some videos

/-- Claim C7: the three history-store operations never propagate a
failure: every error path of `get_previous_stats` (missing sheet —
whether or not re-creating it succeeds —, read errors, missing
required columns, unparseable dates) returns the empty map, and any
error inside the two update operations skips the update; in all cases
the embedded functions return plain values, never an exception. -/
theorem c7_error_absorption :
    (∀ sortFn dateParse b vid,
      getPreviousStats sortFn dateParse (.sheetMissing b) vid = none) ∧
    (∀ sortFn dateParse vid,
      getPreviousStats sortFn dateParse .readError vid = none) ∧
    (∀ sortFn dateParse cols rows vid, ("date" ∉ cols ∨ "video_id" ∉ cols) →
      getPreviousStats sortFn dateParse (.records cols rows) vid = none) ∧
    (∀ sortFn dateParse cols rows vid, allParsed dateParse rows = none →
      getPreviousStats sortFn dateParse (.records cols rows) vid = none) ∧
    (∀ today videos, updateVideoHistory .err today videos = none) ∧
    (∀ videos, updateCurrentData .err videos = none) := by
  refine ⟨fun _ _ _ _ => rfl, fun _ _ _ => rfl, ?_, ?_, ?_, ?_⟩
  · intro sortFn dateParse cols rows vid hmiss
    rw [getPreviousStats]
    split
    · rfl
    · rw [if_neg]
      rintro ⟨hd, hv⟩
      rcases hmiss with h | h
      · exact h hd
      · exact h hv
  · intro sortFn dateParse cols rows vid hparse
    rw [getPreviousStats]
    split
    · rfl
    · split
      · rw [hparse]
      · rfl
  · intro today videos
    rw [updateVideoHistory]
    split
    · rfl
    · rfl
  · intro videos
    rw [updateCurrentData]
    split
    · rfl
    · rfl

/-- Witness for claim C7: a table with rows but no date column yields
the empty map, and an erroring append skips the update. -/
theorem c7_error_absorption_witness :
    ("date" ∉ (["video_id", "view_count"] : List String) ∨
      "video_id" ∉ (["video_id", "view_count"] : List String)) ∧
    getPreviousStats stableDateSort (fun _ => some 0)
      (.records ["video_id", "view_count"] [⟨"v1", 10, "2024-01-01"⟩]) "v1" = none ∧
    allParsed (fun _ => none) [⟨"v1", 10, "bad-date"⟩] = none ∧
    getPreviousStats stableDateSort (fun _ => none)
      (.records ["video_id", "view_count", "date"] [⟨"v1", 10, "bad-date"⟩]) "v1" = none ∧
    updateVideoHistory .err "2024-01-02" [] = none := by
  have hd : "date" ∉ (["video_id", "view_count"] : List String) := by decide
  refine ⟨Or.inl hd, ?_, by rfl, ?_, ?_⟩
  · exact c7_error_absorption.2.2.1 stableDateSort (fun _ => some 0) _ _ "v1" (Or.inl hd)
  · exact c7_error_absorption.2.2.2.1 stableDateSort (fun _ => none) _ _ "v1" rfl
  · exact c7_error_absorption.2.2.2.2.1 "2024-01-02" []

/-- The transport error raised by the API client (`HttpError`). -/
structure HttpFailure where
  msg : String
deriving DecidableEq

/-- The `search_params` dict built by `YouTubeDataAPI.search_videos`
(get_video_data.py, lines 69-82). -/
structure SearchParams where
  q : String
  maxResults : Int
  relevanceLanguage : String
  order : String
  publishedAfter : Option String
  publishedBefore : Option String
deriving DecidableEq

/-- Construction of the single search request of `search_videos`:
result cap `min(max_results, 50)`, fixed locale hint `ja`, fixed order
`viewCount`, optional date filters. -/
def buildSearchParams (query : String) (maxResults : Int)
    (publishedAfter publishedBefore : Option String) : SearchParams :=
  { q := query
    maxResults := min maxResults 50
    relevanceLanguage := "ja"
    order := "viewCount"
    publishedAfter := publishedAfter
    publishedBefore := publishedBefore }

/-- Embedding of `YouTubeDataAPI.search_videos` (get_video_data.py,
lines 55-92).  `api` is the remote oracle: `.error` models a raised
`HttpError`, which the function catches, logs and converts to the empty
list; `.ok` returns the video ids of the response items. -/
def searchVideos (api : SearchParams → Except HttpFailure (List String))
    (query : String) (maxResults : Int)
    (publishedAfter publishedBefore : Option String) : List String :=
  match api (buildSearchParams query maxResults publishedAfter publishedBefore) with
  | .ok ids => ids
  | .error _ => []

/-- Claim C8: `search_videos` returns the empty list (not an exception)
on any transport error, and the one request it issues caps the result
count at `min(limit, 50) ≤ 50` whatever the limit argument, with the
fixed `viewCount` ordering and `ja` locale hint; on success it returns
the response ids. -/
theorem c8_search_videos (api : SearchParams → Except HttpFailure (List String))
    (query : String) (maxResults : Int)
    (publishedAfter publishedBefore : Option String) :
    (∀ e, api (buildSearchParams query maxResults publishedAfter publishedBefore)
        = .error e →
      searchVideos api query maxResults publishedAfter publishedBefore = []) ∧
    (buildSearchParams query maxResults publishedAfter publishedBefore).maxResults
      = min maxResults 50 ∧
    (buildSearchParams query maxResults publishedAfter publishedBefore).maxResults ≤ 50 ∧
    (buildSearchParams query maxResults publishedAfter publishedBefore).order
      = "viewCount" ∧
    (buildSearchParams query maxResults publishedAfter
        publishedBefore).relevanceLanguage = "ja" ∧
    (∀ ids, api (buildSearchParams query maxResults publishedAfter publishedBefore)
        = .ok ids →
      searchVideos api query maxResults publishedAfter publishedBefore = ids) := by
  refine ⟨?_, rfl, min_le_right _ _, rfl, rfl, ?_⟩
  · intro e he
    rw [searchVideos, he]
  · intro ids hids
    rw [searchVideos, hids]

/-- Witness for claim C8: an always-failing transport yields the empty
list even with a limit of 1000, and the issued cap is 50. -/
theorem c8_search_videos_witness :
    (fun _ => Except.error ⟨"HttpError 403"⟩ :
        SearchParams → Except HttpFailure (List String))
      (buildSearchParams "cats" 1000 none none) = .error ⟨"HttpError 403"⟩ ∧
    searchVideos (fun _ => .error ⟨"HttpError 403"⟩) "cats" 1000 none none = [] ∧
    (buildSearchParams "cats" 1000 none none).maxResults ≤ 50 := by
  refine ⟨rfl, ?_, ?_⟩
  · exact (c8_search_videos (fun _ => .error ⟨"HttpError 403"⟩) "cats" 1000
      none none).1 ⟨"HttpError 403"⟩ rfl
  · exact (c8_search_videos (fun _ => .error ⟨"HttpError 403"⟩) "cats" 1000
      none none).2.2.1

/-- Python truthiness of an optional string value: `None` and the empty
string are falsy. -/
def strTruthy : Option String → Bool
  | none => false
  | some s => !(s == "")

/-- Python `a or b` on optional strings: the first operand if truthy,
otherwise the second (even if that one is falsy too). -/
def pyOr (a b : Option String) : Option String :=
  if strTruthy a then a else b

/-- Embedding of the credential check of `YouTubeDataAPI.__init__`
(get_video_data.py, lines 35-49): `if not self.api_key: raise
ValueError(...)`.  The remote client construction after the check is
not modelled. -/
def youtubeInit (apiKey : Option String) : Except String String :=
  if strTruthy apiKey then .ok (apiKey.getD "")
  else .error "YouTube API key is missing. Please provide a valid API key."

/-- Resolved configuration stored by a successfully constructed
`GoogleSheetsManager`. -/
structure SheetsConfig where
  credsPath : String
  spreadsheetId : String
deriving DecidableEq

/-- Embedding of the credential checks of `GoogleSheetsManager.__init__`
(update_gsheet.py, lines 22-43): argument-or-environment fallback for
both values, then a `ValueError` for whichever is still falsy (the
credentials path is checked first).  The subsequent `_authenticate`
call is not modelled. -/
def sheetsInit (credentialsPath spreadsheetId envCreds envSheetId : Option String) :
    Except String SheetsConfig :=
  let creds := pyOr credentialsPath envCreds
  let sid := pyOr spreadsheetId envSheetId
  if ¬ strTruthy creds then
    .error "Google credentials path is missing. Please set GOOGLE_CREDS_JSON_PATH environment variable."
  else if ¬ strTruthy sid then
    .error "Google spreadsheet ID is missing. Please set GOOGLE_SHEETS_ID environment variable."
  else .ok ⟨creds.getD "", sid.getD ""⟩

theorem strTruthy_pyOr (a b : Option String) :
    strTruthy (pyOr a b) = (strTruthy a || strTruthy b) := by
  rw [pyOr]
  by_cases h : strTruthy a
  · rw [if_pos h, h]
    rfl
  · rw [if_neg h]
    simp only [Bool.not_eq_true] at h
    rw [h, Bool.false_or]

/-- Claim C9: missing required credentials are fatal at construction
time: `YouTubeDataAPI` raises a `ValueError` exactly when the API key
is `None` or empty, and `GoogleSheetsManager` raises a `ValueError`
exactly when neither the argument nor the environment supplies a
truthy credentials path, or neither supplies a truthy spreadsheet ID —
the error is the immediate result of construction, not absorbed. -/
theorem c9_init_validation :
    (∀ apiKey, (∃ e, youtubeInit apiKey = .error e) ↔ strTruthy apiKey = false) ∧
    (∀ cp sid ec es,
      (∃ e, sheetsInit cp sid ec es = .error e) ↔
        ((strTruthy cp || strTruthy ec) = false ∨
         (strTruthy sid || strTruthy es) = false)) := by
  constructor
  · intro apiKey
    constructor
    · intro ⟨e, he⟩
      by_contra hts
      simp only [Bool.not_eq_false] at hts
      rw [youtubeInit, if_pos hts] at he
      exact Except.noConfusion he
    · intro hts
      rw [youtubeInit, if_neg (by rw [hts]; exact Bool.false_ne_true)]
      exact ⟨_, rfl⟩
  · intro cp sid ec es
    rw [← strTruthy_pyOr cp ec, ← strTruthy_pyOr sid es]
    constructor
    · intro ⟨e, he⟩
      by_contra hboth
      push_neg at hboth
      obtain ⟨h1, h2⟩ := hboth
      simp only [Bool.not_eq_false] at h1 h2
      rw [sheetsInit] at he
      simp only [h1, h2, not_true, if_false] at he
      exact Except.noConfusion he
    · intro hor
      rcases hor with h | h
      · rw [sheetsInit]
        simp only [h]
        rw [if_pos (by exact Bool.false_ne_true)]
        exact ⟨_, rfl⟩
      · by_cases h1 : strTruthy (pyOr cp ec) = true
        · rw [sheetsInit]
          simp only [h1, h]
          rw [if_neg (by simp), if_pos (by exact Bool.false_ne_true)]
          exact ⟨_, rfl⟩
        · rw [sheetsInit]
          simp only [Bool.not_eq_true] at h1
          simp only [h1]
          rw [if_pos (by exact Bool.false_ne_true)]
          exact ⟨_, rfl⟩

/-- Witness for claim C9: an empty api key errors; a `None` argument
pair with one truthy environment value still lacks a spreadsheet ID and
errors; fully supplied values construct successfully (shown directly by
evaluation). -/
theorem c9_init_validation_witness :
    (∃ e, youtubeInit (some "") = .error e) ∧
    (∃ e, sheetsInit none none (some "/creds.json") none = .error e) ∧
    youtubeInit (some "k") = .ok "k" ∧
    sheetsInit none (some "sheet1") (some "/creds.json") none
      = .ok ⟨"/creds.json", "sheet1"⟩ := by
  refine ⟨?_, ?_, rfl, rfl⟩
  · exact (c9_init_validation.1 (some "")).mpr (by decide)
  · exact (c9_init_validation.2 none none (some "/creds.json") none).mpr
      (Or.inr (by decide))

/-- Snippet block of a channel item. -/
structure ChannelSnippet where
  title : Option String
  description : Option String
  publishedAt : Option String
deriving DecidableEq

/-- The derived `avg_stats` entry added by `fetch_channel_stats`. -/
structure AvgStats where
  avg_views : Int
  avg_likes : Int
  avg_comments : Int
deriving DecidableEq

/-- One channel's details dict as consumed by `compare_channels`: the
raw API snippet and statistics, plus the derived `avg_stats` and
`posting_pace` entries, either of which may be absent (`.get(..., {})`
in the source).  `posting_pace` is `(avg_days_between_videos,
videos_per_month)` as produced by the `postingPace` embedding. -/
structure ChannelDetails where
  snippet : ChannelSnippet
  statistics : ChannelStats
  avg_stats : Option AvgStats
  posting_pace : Option (ℚ × ℚ)

/-- One row of the comparison table built by `compare_channels`.  The
source field `engagement_ratio` is called `engagementRate` here. -/
structure ComparisonRow where
  channel_id : String
  channel_name : String
  description : String
  subscriber_count : Int
  video_count : Int
  view_count : Int
  avg_views_per_video : ℚ
  avg_views : Int
  avg_likes : Int
  avg_comments : Int
  engagementRate : ℚ
  videos_per_month : ℚ
  days_between_videos : ℚ
  created_at : String

/-- Embedding of the per-channel row construction of
`ChannelAnalyzer.compare_channels` (channel_analyzer.py, lines
109-143). -/
def compareRow (cid : String) (details : ChannelDetails) : ComparisonRow :=
  let snippet := details.snippet
  let stats := details.statistics
  let descr := snippet.description.getD ""
  { channel_id := cid
    channel_name := snippet.title.getD "不明"
    description := if descr = "" then "" else descr.take 100 ++ "..."
    subscriber_count := stats.subscriberCount.getD 0
    video_count := stats.videoCount.getD 0
    view_count := stats.viewCount.getD 0
    avg_views_per_video :=
      ((stats.viewCount.getD 0 : Int) : ℚ) / ((max (stats.videoCount.getD 1) 1 : Int) : ℚ)
    avg_views := (details.avg_stats.map (fun a => a.avg_views)).getD 0
    avg_likes := (details.avg_stats.map (fun a => a.avg_likes)).getD 0
    avg_comments := (details.avg_stats.map (fun a => a.avg_comments)).getD 0
    engagementRate :=
      (((details.avg_stats.map (fun a => a.avg_likes)).getD 0 : Int) : ℚ)
        / ((max ((details.avg_stats.map (fun a => a.avg_views)).getD 1) 1 : Int) : ℚ) * 100
    videos_per_month := (details.posting_pace.map (fun p => p.2)).getD 0
    days_between_videos := (details.posting_pace.map (fun p => p.1)).getD 0
    created_at := snippet.publishedAt.getD "" }

/-- Embedding of `ChannelAnalyzer.compare_channels`: one comparison row
per channel entry, in iteration order. -/
def compareChannels (channels : List (String × ChannelDetails)) : List ComparisonRow :=
  channels.map (fun p => compareRow p.1 p.2)

/-- Claim C10: `compare_channels` maps a channel lacking the
`posting_pace` entry to a row with `videos_per_month = 0` and
`days_between_videos = 0`, the same two values it produces for a
channel whose cadence is reported as exactly zero — absence is
converted to zero defaults and is indistinguishable from a zero
cadence at this interface. -/
theorem c10_compare_channels (cid : String) (details : ChannelDetails)
    (habsent : details.posting_pace = none) :
    (compareRow cid details).videos_per_month = 0 ∧
    (compareRow cid details).days_between_videos = 0 ∧
    ((compareRow cid details).videos_per_month,
        (compareRow cid details).days_between_videos)
      = ((compareRow cid { details with posting_pace := some (0, 0) }).videos_per_month,
         (compareRow cid { details with posting_pace := some (0, 0) }).days_between_videos) ∧
    compareRow cid details ∈ compareChannels [(cid, details)] := by
  refine ⟨?_, ?_, ?_, ?_⟩
  · simp [compareRow, habsent]
  · simp [compareRow, habsent]
  · simp [compareRow, habsent]
  · simp [compareChannels]

/-- Concrete channel details without a posting pace, for the C10
witness. -/
def c10Details : ChannelDetails :=
  { snippet := { title := some "ch", description := none, publishedAt := none }
    statistics := { subscriberCount := some 10, videoCount := some 3, viewCount := some 90 }
    avg_stats := none
    posting_pace := none }

/-- Witness for claim C10: a channel with no posting pace gets zeros in
both cadence columns of the comparison table. -/
theorem c10_compare_channels_witness :
    c10Details.posting_pace = none ∧
    (compareRow "UC1" c10Details).videos_per_month = 0 ∧
    (compareRow "UC1" c10Details).days_between_videos = 0 := by
  have h := c10_compare_channels "UC1" c10Details rfl
  exact ⟨rfl, h.1, h.2.1⟩

end YTRT
